import Mathlib

/-!
Verification development for the queue core of this repository
(`baseplate/sidecars/publisher_queue_utils.py` and the message-queue
contract it serves).

The Queue Server handler (`RemoteMessageQueueHandler`) and the factory
`create_queue` are embedded directly from
`baseplate/sidecars/publisher_queue_utils.py`.  Collaborators that live
in `baseplate/lib/message_queue.py` and `baseplate/server` (the
`InMemoryMessageQueue` backend, the `RemoteMessageQueue` client,
`make_listener`) are not part of the analysed sources; those are
modelled from the specification, and each such definition says so in
its doc comment.

Conventions of the embedding:
* payloads are opaque byte sequences, modelled as `List Nat`;
* a Python `dict` is modelled as an association list with first-match
  lookup and in-place replacement on update;
* a raised exception is an `Except.error`; an uncaught Python
  `TypeError` is a distinct error constructor from the Thrift-level
  timeout fault;
* in-place mutation of a queue object held by the registry becomes a
  functional write-back of the updated queue into the registry entry
  (no aliasing arises in the source: every registry entry receives a
  freshly constructed queue object);
* blocking operations are modelled at their decision point: a `get` on
  an empty queue or a `put` on a full queue is observed at the expiry
  of its bounded wait, so the modelled outcome does not depend on the
  numeric timeout value, which is still carried for faithfulness.
-/

/-- Opaque byte payload of a message. -/
abbrev Message := List Nat

/-- The `TimedOutError` raised by a queue backend when a bounded wait
expires without the operation completing. -/
inductive QueueOpError where
  | timedOut
deriving DecidableEq, Repr

/-- Errors that escape a Queue Server handler method: the Thrift-level
`ThriftTimedOutError` fault deliberately raised to the caller, and an
uncaught Python `TypeError` (raised when unpacking `None`, as happens
in `get`/`put` when `self.queues.get(queue_name)` finds nothing). -/
inductive HandlerError where
  | thriftTimedOut
  | typeError
deriving DecidableEq, Repr

/-- Modelled from the spec: the In-Process Queue backend
(`InMemoryMessageQueue`, not part of the analysed sources) is a FIFO
queue bounded by `max_messages`, with no payload-size limit.  The
constructor call in the source is `InMemoryMessageQueue(queue_name,
max_messages)`, starting empty. -/
structure InMemoryMessageQueue where
  name : String
  max_messages : Nat
  items : List Message
deriving DecidableEq, Repr

/-- Modelled from the spec: `get(timeout)` dequeues the oldest payload;
on an empty queue the bounded wait expires into `TimedOutError`.  The
timeout value is carried but the modelled outcome is observed at the
decision point (see the file header). -/
def InMemoryMessageQueue.get (q : InMemoryMessageQueue) (_timeout : Option Nat) :
    Except QueueOpError (Message × InMemoryMessageQueue) :=
  match q.items with
  | [] => .error .timedOut
  | m :: rest => .ok (m, { q with items := rest })

/-- Modelled from the spec: `put(payload, timeout)` enqueues at the
tail; on a full queue (occupancy has reached `max_messages`) the
bounded wait expires into `TimedOutError`. -/
def InMemoryMessageQueue.put (q : InMemoryMessageQueue) (message : Message)
    (_timeout : Option Nat) : Except QueueOpError InMemoryMessageQueue :=
  if q.items.length < q.max_messages then
    .ok { q with items := q.items ++ [message] }
  else
    .error .timedOut

/-- First-match lookup in an association list: `d.get(k)` on a Python
dict, returning `none` when the key is absent. -/
def lookupEntry {α : Type} : List (String × α) → String → Option α
  | [], _ => none
  | (k, v) :: rest, key => if key = k then some v else lookupEntry rest key

/-- Update in an association list: `d[k] = v` on a Python dict.
Replaces the value of an existing key in place, appends otherwise. -/
def setEntry {α : Type} : List (String × α) → String → α → List (String × α)
  | [], key, v => [(key, v)]
  | (k, w) :: rest, key, v =>
      if key = k then (key, v) :: rest else (k, w) :: setEntry rest key v

theorem lookupEntry_setEntry {α : Type} (d : List (String × α)) (k k2 : String) (v : α) :
    lookupEntry (setEntry d k v) k2 = if k2 = k then some v else lookupEntry d k2 := by
  induction d with
  | nil =>
      by_cases h : k2 = k <;> simp [setEntry, lookupEntry, h]
  | cons hd tl ih =>
      obtain ⟨ka, va⟩ := hd
      by_cases hk : k = ka
      · subst hk
        by_cases h2 : k2 = k <;> simp [setEntry, lookupEntry, h2]
      · have hk2 : ¬ka = k := fun hh => hk hh.symm
        by_cases h2 : k2 = ka <;> by_cases h3 : k2 = k
        · exact absurd (h3.symm.trans h2) hk
        · simp [setEntry, lookupEntry, hk, hk2, h2, h3, ih]
        · subst h3
          simp [setEntry, lookupEntry, hk, hk2, h2, ih]
        · simp [setEntry, lookupEntry, hk, hk2, h2, h3, ih]

/-- The Queue Server handler: its state is the registry `self.queues`,
a dict mapping a queue name to the pair `(queue, max_messages)` built
by `create_queue`. -/
structure RemoteMessageQueueHandler where
  queues : List (String × (InMemoryMessageQueue × Nat))
deriving DecidableEq, Repr

/-- Embeds `RemoteMessageQueueHandler.is_healthy`: the body is `pass`,
so every call returns Python `None` — not a boolean — despite the
method's own `-> bool` annotation.  `Option Bool` records exactly
that: `none` is `None`, `some b` would be a boolean. -/
def RemoteMessageQueueHandler.is_healthy
    (_self : RemoteMessageQueueHandler) : Option Bool :=
  none

/-- Embeds `RemoteMessageQueueHandler.create_queue`: unconditionally
builds a fresh `InMemoryMessageQueue(queue_name, max_messages)` and
stores `(queue, max_messages)` under `queue_name`, replacing whatever
entry was there.  The Thrift `CreateResponse()` carries no data, so
only the updated handler is returned. -/
def RemoteMessageQueueHandler.create_queue (self : RemoteMessageQueueHandler)
    (queue_name : String) (max_messages : Nat) : RemoteMessageQueueHandler :=
  ⟨setEntry self.queues queue_name (⟨queue_name, max_messages, []⟩, max_messages)⟩

/-- Embeds `RemoteMessageQueueHandler.get`.  Line 43 of the source,
`queue, max_messages = self.queues.get(queue_name)`, unpacks the
dict's result: when the name is absent the result is `None` and the
unpack raises `TypeError`, which the surrounding
`except TimedOutError` clause does not catch — so the lazy-create
branch guarded by `if not queue` on lines 44-46 is unreachable (a
registered entry is a truthy queue object).  On a registered name the
backend's `get` runs; its `TimedOutError` is re-raised as
`ThriftTimedOutError`, and a dequeued payload is returned as
`GetResponse(result)` together with the registry holding the mutated
queue object. -/
def RemoteMessageQueueHandler.get (self : RemoteMessageQueueHandler)
    (queue_name : String) (timeout : Option Nat) :
    Except HandlerError (Message × RemoteMessageQueueHandler) :=
  match lookupEntry self.queues queue_name with
  | none => .error .typeError
  | some (queue, mx) =>
      match queue.get timeout with
      | .error .timedOut => .error .thriftTimedOut
      | .ok (result, q2) =>
          .ok (result, ⟨setEntry self.queues queue_name (q2, mx)⟩)

/-- Embeds `RemoteMessageQueueHandler.put`.  Line 59,
`queue, _ = self.queues.get(queue_name)`, raises an uncaught
`TypeError` when the name is absent (there is no lazy-create branch at
all on this path).  On a registered name the backend's `put` runs; its
`TimedOutError` is re-raised as `ThriftTimedOutError`, and on success
`PutResponse()` is returned with the registry holding the mutated
queue object. -/
def RemoteMessageQueueHandler.put (self : RemoteMessageQueueHandler)
    (queue_name : String) (message : Message) (timeout : Option Nat) :
    Except HandlerError RemoteMessageQueueHandler :=
  match lookupEntry self.queues queue_name with
  | none => .error .typeError
  | some (queue, mx) =>
      match queue.put message timeout with
      | .error .timedOut => .error .thriftTimedOut
      | .ok q2 => .ok ⟨setEntry self.queues queue_name (q2, mx)⟩

/-- One RPC operation dispatched to the Queue Server handler, as named
in the service surface: `Create`, `Put`, `Get` (with their timeout
arguments where the surface has them). -/
inductive QOp where
  | create (queue_name : String) (max_messages : Nat)
  | put (queue_name : String) (message : Message) (timeout : Option Nat)
  | get (queue_name : String) (timeout : Option Nat)
deriving DecidableEq, Repr

/-- Effect of one operation on the handler, together with the list of
`(queue_name, payload)` pairs returned to callers by a successful
`get`.  A handler method that raises leaves the registry as it was
(every error in the source is raised before any registry mutation). -/
def stepOp (h : RemoteMessageQueueHandler) :
    QOp → RemoteMessageQueueHandler × List (String × Message)
  | .create n mx => (h.create_queue n mx, [])
  | .put n msg t =>
      match h.put n msg t with
      | .ok h2 => (h2, [])
      | .error _ => (h, [])
  | .get n t =>
      match h.get n t with
      | .ok (m, h2) => (h2, [(n, m)])
      | .error _ => (h, [])

/-- Run a sequence of operations against the handler, collecting every
payload a `get` returned, tagged with the queue name it was served
from. -/
def runOps (h : RemoteMessageQueueHandler) :
    List QOp → RemoteMessageQueueHandler × List (String × Message)
  | [] => (h, [])
  | op :: rest =>
      let s := stepOp h op
      let r := runOps s.1 rest
      (r.1, s.2 ++ r.2)

/-- The message `m` is pending in the registry entry for name `n`. -/
def inQueue (h : RemoteMessageQueueHandler) (n : String) (m : Message) : Prop :=
  ∃ q mx, lookupEntry h.queues n = some (q, mx) ∧ m ∈ q.items

theorem put_ok_iff (h : RemoteMessageQueueHandler) (n : String) (msg : Message)
    (t : Option Nat) (h2 : RemoteMessageQueueHandler) :
    h.put n msg t = .ok h2 ↔
      ∃ q0 mx0, lookupEntry h.queues n = some (q0, mx0) ∧
        q0.items.length < q0.max_messages ∧
        h2 = ⟨setEntry h.queues n ({ q0 with items := q0.items ++ [msg] }, mx0)⟩ := by
  constructor
  · intro hput
    unfold RemoteMessageQueueHandler.put at hput
    cases hl : lookupEntry h.queues n with
    | none => rw [hl] at hput; simp at hput
    | some entry =>
        obtain ⟨q0, mx0⟩ := entry
        rw [hl] at hput
        dsimp only at hput
        unfold InMemoryMessageQueue.put at hput
        by_cases hcap : q0.items.length < q0.max_messages
        · rw [if_pos hcap] at hput
          simp at hput
          exact ⟨q0, mx0, rfl, hcap, hput.symm⟩
        · rw [if_neg hcap] at hput
          simp at hput
  · rintro ⟨q0, mx0, hl, hcap, rfl⟩
    unfold RemoteMessageQueueHandler.put
    rw [hl]
    dsimp only
    unfold InMemoryMessageQueue.put
    rw [if_pos hcap]

theorem get_ok_iff (h : RemoteMessageQueueHandler) (n : String) (t : Option Nat)
    (r : Message) (h2 : RemoteMessageQueueHandler) :
    h.get n t = .ok (r, h2) ↔
      ∃ q0 mx0 rest, lookupEntry h.queues n = some (q0, mx0) ∧
        q0.items = r :: rest ∧
        h2 = ⟨setEntry h.queues n ({ q0 with items := rest }, mx0)⟩ := by
  constructor
  · intro hget
    unfold RemoteMessageQueueHandler.get at hget
    cases hl : lookupEntry h.queues n with
    | none => rw [hl] at hget; simp at hget
    | some entry =>
        obtain ⟨q0, mx0⟩ := entry
        rw [hl] at hget
        dsimp only at hget
        unfold InMemoryMessageQueue.get at hget
        cases hitems : q0.items with
        | nil => rw [hitems] at hget; simp at hget
        | cons m0 rest =>
            rw [hitems] at hget
            dsimp only at hget
            simp at hget
            exact ⟨q0, mx0, rest, rfl, by rw [hitems, hget.1], hget.2.symm⟩
  · rintro ⟨q0, mx0, rest, hl, hitems, rfl⟩
    unfold RemoteMessageQueueHandler.get
    rw [hl]
    dsimp only
    unfold InMemoryMessageQueue.get
    rw [hitems]

theorem stepOp_pending_or_put (h : RemoteMessageQueueHandler) (op : QOp)
    (B : String) (m : Message) (hmem : inQueue (stepOp h op).1 B m) :
    inQueue h B m ∨ ∃ t, op = QOp.put B m t := by
  cases op with
  | create n mx =>
      obtain ⟨q, qmx, hq, hmi⟩ := hmem
      simp only [stepOp, RemoteMessageQueueHandler.create_queue,
        lookupEntry_setEntry] at hq
      by_cases hBn : B = n
      · rw [if_pos hBn] at hq
        obtain ⟨rfl, rfl⟩ : (⟨n, mx, []⟩ : InMemoryMessageQueue) = q ∧ mx = qmx := by
          exact ⟨congrArg Prod.fst (Option.some_injective _ hq),
            congrArg Prod.snd (Option.some_injective _ hq)⟩
        simp at hmi
      · rw [if_neg hBn] at hq
        exact Or.inl ⟨q, qmx, hq, hmi⟩
  | put n msg t =>
      cases hput : h.put n msg t with
      | error e =>
          left
          simpa [stepOp, hput] using hmem
      | ok h2 =>
          rw [stepOp, hput] at hmem
          obtain ⟨q0, mx0, hl, hcap, rfl⟩ := (put_ok_iff h n msg t h2).mp hput
          obtain ⟨q, qmx, hq, hmi⟩ := hmem
          rw [lookupEntry_setEntry] at hq
          by_cases hBn : B = n
          · rw [if_pos hBn] at hq
            obtain ⟨rfl, rfl⟩ : ({ q0 with items := q0.items ++ [msg] } : InMemoryMessageQueue) = q ∧ mx0 = qmx := by
              exact ⟨congrArg Prod.fst (Option.some_injective _ hq),
                congrArg Prod.snd (Option.some_injective _ hq)⟩
            rcases (by simpa using hmi : m ∈ q0.items ∨ m = msg) with hmem0 | hmsg
            · exact Or.inl ⟨q0, mx0, by rw [hBn]; exact hl, hmem0⟩
            · exact Or.inr ⟨t, by rw [hBn, hmsg]⟩
          · rw [if_neg hBn] at hq
            exact Or.inl ⟨q, qmx, hq, hmi⟩
  | get n t =>
      cases hget : h.get n t with
      | error e =>
          left
          simpa [stepOp, hget] using hmem
      | ok pr =>
          obtain ⟨r, h2⟩ := pr
          rw [stepOp, hget] at hmem
          obtain ⟨q0, mx0, rest, hl, hitems, rfl⟩ := (get_ok_iff h n t r h2).mp hget
          obtain ⟨q, qmx, hq, hmi⟩ := hmem
          rw [lookupEntry_setEntry] at hq
          by_cases hBn : B = n
          · rw [if_pos hBn] at hq
            obtain ⟨rfl, rfl⟩ : ({ q0 with items := rest } : InMemoryMessageQueue) = q ∧ mx0 = qmx := by
              exact ⟨congrArg Prod.fst (Option.some_injective _ hq),
                congrArg Prod.snd (Option.some_injective _ hq)⟩
            exact Or.inl ⟨q0, mx0, by rw [hBn]; exact hl, by rw [hitems]; exact List.mem_cons_of_mem _ hmi⟩
          · rw [if_neg hBn] at hq
            exact Or.inl ⟨q, qmx, hq, hmi⟩

theorem stepOp_output_pending (h : RemoteMessageQueueHandler) (op : QOp)
    (B : String) (m : Message) (hout : (B, m) ∈ (stepOp h op).2) :
    inQueue h B m := by
  cases op with
  | create n mx => simp [stepOp] at hout
  | put n msg t =>
      cases hput : h.put n msg t with
      | error e => simp [stepOp, hput] at hout
      | ok h2 => simp [stepOp, hput] at hout
  | get n t =>
      cases hget : h.get n t with
      | error e => simp [stepOp, hget] at hout
      | ok pr =>
          obtain ⟨r, h2⟩ := pr
          rw [stepOp, hget] at hout
          obtain ⟨q0, mx0, rest, hl, hitems, rfl⟩ := (get_ok_iff h n t r h2).mp hget
          obtain ⟨rfl, rfl⟩ : B = n ∧ m = r := by
            simpa using hout
          exact ⟨q0, mx0, hl, by rw [hitems]; exact List.mem_cons_self _ _⟩

/-- Claim C6: two distinct queue names registered on the same Queue
Server are fully isolated.  Over an arbitrary interleaving of
`create`/`put`/`get` operations, every payload returned by a `get`
against name `B` was either already pending in `B`'s registry entry at
the start or was enqueued by a `put` against `B` itself — so a message
enqueued via `put(A, m)` with `A ≠ B` (and not also put to `B`) is
never returned by a `get(B)`: the registry maps each name to its own
queue instance and every operation touches only its own entry. -/
theorem c6_queue_isolation (h0 : RemoteMessageQueueHandler) (ops : List QOp)
    (B : String) (m : Message) (hmem : (B, m) ∈ (runOps h0 ops).2) :
    inQueue h0 B m ∨ ∃ t, QOp.put B m t ∈ ops := by
  induction ops generalizing h0 with
  | nil => simp [runOps] at hmem
  | cons op rest ih =>
      rw [runOps] at hmem
      rcases List.mem_append.mp hmem with hfirst | hrest
      · exact Or.inl (stepOp_output_pending h0 op B m hfirst)
      · rcases ih (stepOp h0 op).1 hrest with hpend | ⟨t, hput⟩
        · rcases stepOp_pending_or_put h0 op B m hpend with hpend0 | ⟨t, hop⟩
          · exact Or.inl hpend0
          · exact Or.inr ⟨t, by rw [hop]; exact List.mem_cons_self _ _⟩
        · exact Or.inr ⟨t, List.mem_cons_of_mem _ hput⟩

/-- A host/port address, as produced by `config.Endpoint("host:port")`. -/
structure Endpoint where
  host : String
  port : Nat
deriving DecidableEq, Repr

/-- Modelled from the spec: `baseplate.server.make_listener` (not part
of the analysed sources) binds a listening socket to the requested
endpoint; requesting port 0 selects an ephemeral port — represented by
the `assigned` parameter, the port the operating system hands out —
and the concretely bound address is what `getsockname()` later
reports, held in `sockname`. -/
structure Listener where
  sockname : Endpoint
deriving DecidableEq, Repr

def make_listener (requested : Endpoint) (assigned : Nat) : Listener :=
  ⟨⟨requested.host, if requested.port = 0 then assigned else requested.port⟩⟩

/-- State of the greenlet spawned to run `server.serve_forever`. -/
inductive GreenletState where
  | running
  | killed
deriving DecidableEq, Repr

/-- Outcome of one use of the `start_queue_server` context manager:
the endpoint the yielded server advertises, what the caller's body
produced (a value, or the exception it raised), and the final state of
the serve-loop greenlet. -/
structure ServerRun (ε α : Type) where
  endpoint : Endpoint
  result : Except ε α
  greenlet : GreenletState
deriving Repr

/-- Embeds `start_queue_server`: builds the listener from the
requested host and port, reads the concretely bound address back via
`getsockname()` and stores it on the server, spawns the serve loop,
and runs the caller's body inside `try ... finally
server_greenlet.kill()`, so the greenlet is killed whether the body
returns or raises.  The body receives the endpoint the yielded server
advertises; `assigned` stands for the ephemeral port the operating
system picks when port 0 is requested (see `make_listener`). -/
def start_queue_server {ε α : Type} (host : String) (port : Nat) (assigned : Nat)
    (body : Endpoint → Except ε α) : ServerRun ε α :=
  let listener := make_listener ⟨host, port⟩ assigned
  let server_address := listener.sockname
  match body server_address with
  | .ok a => ⟨server_address, .ok a, .killed⟩
  | .error e => ⟨server_address, .error e, .killed⟩

/-- Failures a Remote Queue Client call can surface: the uniform
`TimedOutError` and the distinct pool-exhaustion condition. -/
inductive ClientError where
  | timedOut
  | poolTimeout
deriving DecidableEq, Repr

/-- Modelled from the spec: the greenlet handle returned by the remote
client's `put`; it carries the outcome the dispatched call will
produce, visible only through `join`. -/
structure PutHandle where
  outcome : Except ClientError Unit
deriving Repr

/-- Modelled from the spec: the application-facing `RemoteMessageQueue`
client (not part of the analysed sources).  `observed` records every
call outcome the caller has seen so far; a dispatched-but-unjoined
call contributes nothing to it. -/
structure RemoteMessageQueue where
  observed : List (Except ClientError Unit)
deriving Repr

/-- Modelled from the spec: `RemoteMessageQueue.put(payload, timeout)`
acquires a pool slot, issues the `put` RPC and releases the slot
inside a spawned greenlet, and returns that greenlet as a joinable
handle without waiting for it.  `outcome` stands for the result the
dispatched call will produce (success, `TimedOut`, or `PoolTimeout`);
the caller's `observed` list is untouched by the dispatch itself. -/
def RemoteMessageQueue.put (client : RemoteMessageQueue)
    (outcome : Except ClientError Unit) : PutHandle × RemoteMessageQueue :=
  (⟨outcome⟩, client)

/-- Modelled from the spec: joining a `put` handle waits for the
dispatched call and surfaces its outcome to the caller — success, or
the `TimedOut`/`PoolTimeout` failure the call produced. -/
def RemoteMessageQueue.join (client : RemoteMessageQueue) (handle : PutHandle) :
    Except ClientError Unit × RemoteMessageQueue :=
  (handle.outcome, ⟨client.observed ++ [handle.outcome]⟩)

/-- Modelled from the tests and the factory's branches: the
configuration tag selecting a backend.  `create_queue` compares
against `IN_MEMORY`; the test suite exercises `POSIX` as the other
member. -/
inductive QueueType where
  | IN_MEMORY
  | POSIX
deriving DecidableEq, Repr

/-- The backend constructed by the factory: the constructor arguments
of `RemoteMessageQueue(name, max_queue_size, host, port)` or
`PosixMessageQueue(name, max_messages, max_message_size)` as passed in
`create_queue`. -/
inductive MessageQueue where
  | remote (name : String) (max_queue_size : Nat) (host : String) (port : Nat)
  | posix (name : String) (max_messages : Nat) (max_message_size : Nat)
deriving DecidableEq, Repr

/-- The queue name the constructed backend was given. -/
def MessageQueue.qname : MessageQueue → String
  | .remote n _ _ _ => n
  | .posix n _ _ => n

/-- Embeds the module-level factory `create_queue`: an `IN_MEMORY`
queue type yields a `RemoteMessageQueue` bound to `host:port`, any
other queue type yields a `PosixMessageQueue` with
`max_messages=max_queue_size` and `max_message_size=max_element_size`;
both receive the name `"/events-" + queue_name`. -/
def create_queue (queue_type : QueueType) (queue_name : String)
    (max_queue_size : Nat) (max_element_size : Nat)
    (host : String) (port : Nat) : MessageQueue :=
  if queue_type = QueueType.IN_MEMORY then
    .remote ("/events-" ++ queue_name) max_queue_size host port
  else
    .posix ("/events-" ++ queue_name) max_queue_size max_element_size

theorem lookup_set_self {α : Type} (d : List (String × α)) (k : String) (v : α) :
    lookupEntry (setEntry d k v) k = some v := by
  rw [lookupEntry_setEntry, if_pos rfl]

/-- Witness trace for claim C6 at a concrete interleaving: two names
are created, a payload goes to each, and the `get` against "B"
observes only what was put to "B". -/
theorem c6_queue_isolation_witness :
    (("B", ([3] : Message)) ∈
      (runOps ⟨[]⟩ [QOp.create "A" 5, QOp.create "B" 5, QOp.put "A" [7] (some 1),
        QOp.put "B" [3] (some 1), QOp.get "B" (some 1)]).2) ∧
    (inQueue (⟨[]⟩ : RemoteMessageQueueHandler) "B" [3] ∨
      ∃ t, QOp.put "B" [3] t ∈ [QOp.create "A" 5, QOp.create "B" 5, QOp.put "A" [7] (some 1),
        QOp.put "B" [3] (some 1), QOp.get "B" (some 1)]) :=
  ⟨by decide, c6_queue_isolation ⟨[]⟩ _ "B" [3] (by decide)⟩

/-- Handler used by claim C1: the name "q" is registered with capacity
2 and one pending message `[1]`. -/
def c1_handler : RemoteMessageQueueHandler := ⟨[("q", (⟨"q", 2, [[1]]⟩, 2))]⟩

/-- Claim C1 counterexample: on a registry already holding "q" with a
pending message, a further `create_queue("q", 2)` is not a no-op — the
registry entry for "q" changes (the pending message is discarded). -/
theorem c1_create_not_noop :
    lookupEntry (c1_handler.create_queue "q" 2).queues "q" ≠
      lookupEntry c1_handler.queues "q" := by
  decide

/-- Claim C1 (amended): for every queue name already registered in the
registry, a further `create_queue(name, max_messages)` unconditionally
replaces the entry for that name with a freshly constructed empty
queue of the newly requested capacity, discarding every message that
was pending in the previous backend. -/
theorem c1_create_replaces (h : RemoteMessageQueueHandler) (nm : String)
    (mx : Nat) (_hreg : (lookupEntry h.queues nm).isSome = true) :
    lookupEntry (h.create_queue nm mx).queues nm = some (⟨nm, mx, []⟩, mx) := by
  rw [RemoteMessageQueueHandler.create_queue]
  exact lookup_set_self h.queues nm _

/-- Witness for claim C1's amended theorem at a concrete registered
name. -/
theorem c1_create_replaces_witness :
    (lookupEntry c1_handler.queues "q").isSome = true ∧
    lookupEntry (c1_handler.create_queue "q" 5).queues "q" = some (⟨"q", 5, []⟩, 5) :=
  ⟨by decide, c1_create_replaces c1_handler "q" 5 (by decide)⟩

/-- Claim C2, evaluated at the failing input: against a Queue Server
that has never seen any name, `get("eventq", timeout=1)` does not
lazily create the queue and wait under the timeout contract — line 43
unpacks the `None` returned by `self.queues.get`, raising an uncaught
`TypeError` (a not-found-style failure distinct from the timed-out
signal), and the lazy-create branch below it never runs. -/
theorem c2_get_unseen_typeerror :
    RemoteMessageQueueHandler.get ⟨[]⟩ "eventq" (some 1) = .error .typeError ∧
    HandlerError.typeError ≠ HandlerError.thriftTimedOut :=
  ⟨rfl, by decide⟩

/-- Claim C3 counterexample: `put` against the never-seen name
"orders" does not lazily create a queue and enqueue the payload — it
fails with the uncaught `TypeError` from looking up the missing
name. -/
theorem c3_put_unseen_not_lazy :
    RemoteMessageQueueHandler.put ⟨[]⟩ "orders" [5] (some 2) = .error .typeError :=
  rfl

/-- Claim C3 (amended): the server's `put` path has no lazy-create
branch at all: for every queue name absent from the registry,
`put(name, payload, timeout)` raises an uncaught `TypeError` from
unpacking the failed registry lookup instead of creating the queue and
enqueueing. -/
theorem c3_put_unseen_fails (h : RemoteMessageQueueHandler) (nm : String)
    (msg : Message) (t : Option Nat)
    (hunseen : lookupEntry h.queues nm = none) :
    h.put nm msg t = .error .typeError := by
  rw [RemoteMessageQueueHandler.put, hunseen]

/-- Witness for claim C3's amended theorem at a concrete unseen
name. -/
theorem c3_put_unseen_fails_witness :
    lookupEntry (⟨[]⟩ : RemoteMessageQueueHandler).queues "q" = none ∧
    RemoteMessageQueueHandler.put ⟨[]⟩ "q" [7] (some 1) = .error .typeError :=
  ⟨rfl, c3_put_unseen_fails ⟨[]⟩ "q" [7] (some 1) rfl⟩

/-- Claim C4: for every registered queue name, whenever the underlying
queue's `get` (empty queue) or `put` (full queue) raises the timed-out
error within the requested bound, the handler raises the
distinguishable `ThriftTimedOutError` to the caller instead of
returning a normal response — so a timeout can never be confused with
an empty-bytes payload. -/
theorem c4_timedout_translated (h : RemoteMessageQueueHandler) (nm : String)
    (q : InMemoryMessageQueue) (mx : Nat) (msg : Message) (t : Option Nat)
    (hreg : lookupEntry h.queues nm = some (q, mx)) :
    (q.get t = .error .timedOut → h.get nm t = .error .thriftTimedOut) ∧
    (q.put msg t = .error .timedOut → h.put nm msg t = .error .thriftTimedOut) := by
  constructor
  · intro hg
    rw [RemoteMessageQueueHandler.get, hreg]
    dsimp only
    rw [hg]
  · intro hp
    rw [RemoteMessageQueueHandler.put, hreg]
    dsimp only
    rw [hp]

/-- Handler used by claim C4's witness: "q" is registered with
capacity 0, so its `get` times out on the empty queue and its `put`
times out on the (vacuously) full queue. -/
def c4_handler : RemoteMessageQueueHandler := ⟨[("q", (⟨"q", 0, []⟩, 0))]⟩

/-- Witness for claim C4 at a concrete registered name whose backend
times out on both operations. -/
theorem c4_timedout_translated_witness :
    lookupEntry c4_handler.queues "q" = some (⟨"q", 0, []⟩, 0) ∧
    c4_handler.get "q" (some 1) = .error .thriftTimedOut ∧
    c4_handler.put "q" [2] (some 1) = .error .thriftTimedOut :=
  ⟨rfl, (c4_timedout_translated c4_handler "q" ⟨"q", 0, []⟩ 0 [2] (some 1) rfl).1 rfl,
    (c4_timedout_translated c4_handler "q" ⟨"q", 0, []⟩ 0 [2] (some 1) rfl).2 rfl⟩

/-- Claim C5: for every registered queue name, messages are dequeued
in the order they were successfully enqueued.  Starting from an empty
registered queue with capacity for two messages, after `put(name, m1)`
then `put(name, m2)` succeed, the next `get(name)` returns exactly
`m1` and the following `get(name)` returns exactly `m2`; in
particular (second conjunct) a single `put(name, m)` followed by
`get(name)` returns exactly `m`. -/
theorem c5_fifo_order (h : RemoteMessageQueueHandler) (nm : String)
    (q : InMemoryMessageQueue) (mx : Nat) (m1 m2 : Message) (t : Option Nat)
    (hreg : lookupEntry h.queues nm = some (q, mx))
    (hempty : q.items = []) (hcap : 2 ≤ q.max_messages) :
    (∃ h1 h2 h3 h4,
      h.put nm m1 t = .ok h1 ∧
      h1.put nm m2 t = .ok h2 ∧
      h2.get nm t = .ok (m1, h3) ∧
      h3.get nm t = .ok (m2, h4)) ∧
    (∃ g1 g2, h.put nm m1 t = .ok g1 ∧ g1.get nm t = .ok (m1, g2)) := by
  obtain ⟨qn, qmax, qitems⟩ := q
  dsimp only at hempty hcap
  subst hempty
  have hcap1 : ([] : List Message).length < qmax := by simp; omega
  have hcap2 : ([m1] : List Message).length < qmax := by simp; omega
  constructor
  · exact ⟨⟨setEntry h.queues nm (⟨qn, qmax, [m1]⟩, mx)⟩,
      ⟨setEntry (setEntry h.queues nm (⟨qn, qmax, [m1]⟩, mx)) nm (⟨qn, qmax, [m1, m2]⟩, mx)⟩,
      ⟨setEntry (setEntry (setEntry h.queues nm (⟨qn, qmax, [m1]⟩, mx)) nm
        (⟨qn, qmax, [m1, m2]⟩, mx)) nm (⟨qn, qmax, [m2]⟩, mx)⟩,
      ⟨setEntry (setEntry (setEntry (setEntry h.queues nm (⟨qn, qmax, [m1]⟩, mx)) nm
        (⟨qn, qmax, [m1, m2]⟩, mx)) nm (⟨qn, qmax, [m2]⟩, mx)) nm (⟨qn, qmax, []⟩, mx)⟩,
      (put_ok_iff h nm m1 t _).mpr ⟨⟨qn, qmax, []⟩, mx, hreg, hcap1, rfl⟩,
      (put_ok_iff _ nm m2 t _).mpr ⟨⟨qn, qmax, [m1]⟩, mx, lookup_set_self _ _ _, hcap2, rfl⟩,
      (get_ok_iff _ nm t m1 _).mpr ⟨⟨qn, qmax, [m1, m2]⟩, mx, [m2], lookup_set_self _ _ _, rfl, rfl⟩,
      (get_ok_iff _ nm t m2 _).mpr ⟨⟨qn, qmax, [m2]⟩, mx, [], lookup_set_self _ _ _, rfl, rfl⟩⟩
  · exact ⟨⟨setEntry h.queues nm (⟨qn, qmax, [m1]⟩, mx)⟩,
      ⟨setEntry (setEntry h.queues nm (⟨qn, qmax, [m1]⟩, mx)) nm (⟨qn, qmax, []⟩, mx)⟩,
      (put_ok_iff h nm m1 t _).mpr ⟨⟨qn, qmax, []⟩, mx, hreg, hcap1, rfl⟩,
      (get_ok_iff _ nm t m1 _).mpr ⟨⟨qn, qmax, [m1]⟩, mx, [], lookup_set_self _ _ _, rfl, rfl⟩⟩

/-- Handler used by claim C5's witness: "q" is registered, empty, with
capacity 2. -/
def c5_handler : RemoteMessageQueueHandler := ⟨[("q", (⟨"q", 2, []⟩, 2))]⟩

/-- Witness for claim C5 at a concrete registered empty queue and two
concrete payloads. -/
theorem c5_fifo_order_witness :
    lookupEntry c5_handler.queues "q" = some (⟨"q", 2, []⟩, 2) ∧
    ((∃ h1 h2 h3 h4,
      c5_handler.put "q" [1] none = .ok h1 ∧
      h1.put "q" [2] none = .ok h2 ∧
      h2.get "q" none = .ok ([1], h3) ∧
      h3.get "q" none = .ok ([2], h4)) ∧
    (∃ g1 g2, c5_handler.put "q" [1] none = .ok g1 ∧ g1.get "q" none = .ok ([1], g2))) :=
  ⟨rfl, c5_fifo_order c5_handler "q" ⟨"q", 2, []⟩ 2 [1] [2] none rfl rfl (by decide)⟩

/-- Claim C7: the handler's liveness probe.  In the source the body of
`is_healthy` is `pass`, so for every state of the registry the call
returns Python `None` — independent of per-queue state, but not the
boolean its own `-> bool` annotation and the `HealthCheck() -> bool`
surface promise. -/
theorem c7_is_healthy_none (h : RemoteMessageQueueHandler) :
    h.is_healthy = none :=
  rfl

/-- Claim C8: a started Queue Server exposes its concretely bound
listener address — in particular a caller that requested port 0 can
discover the assigned port — and the spawned serve-loop greenlet is
killed when the owning with-scope exits, both when the body completes
normally and when it raises (the body's outcome is passed through
either way). -/
theorem c8_server_lifecycle {ε α : Type} (host : String) (port assigned : Nat)
    (body : Endpoint → Except ε α) :
    (start_queue_server host port assigned body).greenlet = .killed ∧
    (start_queue_server host port assigned body).endpoint =
      (make_listener ⟨host, port⟩ assigned).sockname ∧
    (start_queue_server host port assigned body).result =
      body (make_listener ⟨host, port⟩ assigned).sockname ∧
    (port = 0 →
      (start_queue_server host port assigned body).endpoint = ⟨host, assigned⟩) := by
  have hmain : start_queue_server host port assigned body =
      ⟨(make_listener ⟨host, port⟩ assigned).sockname,
        body (make_listener ⟨host, port⟩ assigned).sockname, .killed⟩ := by
    cases hb : body (make_listener ⟨host, port⟩ assigned).sockname with
    | ok a => simp [start_queue_server, hb]
    | error e => simp [start_queue_server, hb]
  refine ⟨by rw [hmain], by rw [hmain], by rw [hmain], fun hp => ?_⟩
  rw [hmain]
  subst hp
  simp [make_listener]

/-- Witness for claim C8 at a concrete ephemeral-port request whose
body raises: the advertised endpoint carries the assigned port and the
greenlet still ends killed. -/
theorem c8_server_lifecycle_witness :
    (start_queue_server "127.0.0.1" 0 4321
      (fun _ => (.error "boom" : Except String Unit))).endpoint = ⟨"127.0.0.1", 4321⟩ ∧
    (start_queue_server "127.0.0.1" 0 4321
      (fun _ => (.error "boom" : Except String Unit))).greenlet = .killed :=
  ⟨(c8_server_lifecycle "127.0.0.1" 0 4321 _).2.2.2 rfl,
    (c8_server_lifecycle "127.0.0.1" 0 4321 _).1⟩

/-- Claim C9: the Remote Queue Client's `put` is dispatched
asynchronously.  The dispatch returns a joinable handle while leaving
the caller's observations untouched (first conjunct: a caller that
never joins observes no result and no error), and only joining the
returned handle surfaces the dispatched call's outcome — success, or
its `TimedOut`/`PoolTimeout` failure (second and third conjuncts). -/
theorem c9_put_async_dispatch (client : RemoteMessageQueue)
    (outcome : Except ClientError Unit) :
    ((client.put outcome).2.observed = client.observed) ∧
    (((client.put outcome).2.join (client.put outcome).1).1 = outcome) ∧
    (((client.put outcome).2.join (client.put outcome).1).2.observed =
      client.observed ++ [outcome]) :=
  ⟨rfl, rfl, rfl⟩

/-- Claim C10: the backend-selection factory.  `IN_MEMORY` yields a
`RemoteMessageQueue` — a network-proxied client — bound to
`host:port`; every other queue type yields a `PosixMessageQueue` with
`max_messages=max_queue_size` and `max_message_size=max_element_size`;
in both cases the backend's name is `"/events-"` prepended to
`queue_name`, so it always carries the mandatory leading
separator. -/
theorem c10_create_queue_factory (qt : QueueType) (queue_name : String)
    (mqs mes : Nat) (host : String) (port : Nat) :
    create_queue QueueType.IN_MEMORY queue_name mqs mes host port =
      MessageQueue.remote ("/events-" ++ queue_name) mqs host port ∧
    create_queue QueueType.POSIX queue_name mqs mes host port =
      MessageQueue.posix ("/events-" ++ queue_name) mqs mes ∧
    (create_queue qt queue_name mqs mes host port).qname = "/events-" ++ queue_name ∧
    (create_queue qt queue_name mqs mes host port).qname.data.head? = some '/' := by
  refine ⟨rfl, rfl, ?_, ?_⟩
  · cases qt <;> rfl
  · cases qt <;> (cases queue_name with | mk l => rfl)
